import Mathlib

/-
  Shallow embedding of the `une_tondeuse` repository
  (src/tondeuse/__init__.py and src/tondeuse/mow.py).

  A mower (`Mow`) carries a position, a heading (`Direction`) and an
  optional grid association; it is driven by single-character
  instructions ('G' rotate left, 'D' rotate right, 'A' advance).
-/

namespace Tondeuse

/-- Embedding of `Direction(IntEnum)` from src/tondeuse/__init__.py:
    N = 0, E = 1, S = 2, W = 3. -/
inductive Direction where
  | N
  | E
  | S
  | W
deriving DecidableEq, Repr

/-- The integer value of the `Direction` IntEnum member. -/
def Direction.toInt : Direction → Int
  | .N => 0
  | .E => 1
  | .S => 2
  | .W => 3

/-- Embedding of the `Direction(value)` enum constructor: returns the
    member with the given value, or `none` where Python would raise
    `ValueError`. -/
def Direction.ofIntEnum (n : Int) : Option Direction :=
  if n = 0 then some .N
  else if n = 1 then some .E
  else if n = 2 then some .S
  else if n = 3 then some .W
  else none

/-- The `.name` attribute of the `Direction` enum member. -/
def Direction.name : Direction → String
  | .N => "N"
  | .E => "E"
  | .S => "S"
  | .W => "W"

/-- Embedding of `Rotation(IntEnum)` from src/tondeuse/__init__.py:
    G = -1, D = 1. -/
inductive Rotation where
  | G
  | D
deriving DecidableEq, Repr

/-- The integer value of the `Rotation` IntEnum member. -/
def Rotation.toInt : Rotation → Int
  | .G => -1
  | .D => 1

/-- Embedding of `Position` from src/tondeuse/mow.py: an immutable
    2D integer coordinate. -/
structure Position where
  x : Int
  y : Int
deriving DecidableEq, Repr

/-- Embedding of `Position.__add__`: componentwise sum. -/
def Position.add (a b : Position) : Position :=
  ⟨a.x + b.x, a.y + b.y⟩

instance : Add Position := ⟨Position.add⟩

/-- Embedding of the `Grid` dataclass from src/tondeuse/mow.py. -/
structure Grid where
  x_min : Int
  y_min : Int
  x_max : Int
  y_max : Int
deriving DecidableEq, Repr

/-- Embedding of `Grid.is_inbound`: both coordinates within the closed
    bounds. Python's chained comparison `a <= x <= b` is the conjunction
    of the two comparisons. -/
def Grid.isInbound (g : Grid) (p : Position) : Bool :=
  (decide (g.x_min ≤ p.x) && decide (p.x ≤ g.x_max)) &&
    (decide (g.y_min ≤ p.y) && decide (p.y ≤ g.y_max))

/-- Embedding of `GridPlacementException`, carrying the message string
    it is raised with. -/
structure GridPlacementException where
  msg : String
deriving DecidableEq, Repr

/-- Embedding of the `Mow` object's state: `_position`, `_direction`
    and the optional `_grid` (initialized to `None` by `__init__`). -/
structure Mow where
  position : Position
  direction : Direction
  grid : Option Grid
deriving DecidableEq, Repr

/-- Embedding of `Mow.__init__`: initial position and direction, no
    grid associated. -/
def Mow.init (p : Position) (d : Direction) : Mow :=
  ⟨p, d, none⟩

/-- Embedding of `Mow.__str__`: the string `"{x} {y} {direction.name}"`. -/
def Mow.str (m : Mow) : String :=
  toString m.position.x ++ " " ++ toString m.position.y ++ " " ++ m.direction.name

/-- Embedding of the `Mow.position` property setter: replaces the
    position, with no bounds checking. -/
def Mow.setPosition (m : Mow) (p : Position) : Mow :=
  { m with position := p }

/-- Embedding of the `Mow.direction` property setter. -/
def Mow.setDirection (m : Mow) (d : Direction) : Mow :=
  { m with direction := d }

/-- The computation inside `Mow.rotate`:
    `Direction((self._direction + way) % 4)`, where `%` is Python's
    modulo (sign of the divisor, here always in `[0, 4)`), matched by
    `Int.emod`. `none` models a `ValueError` from the enum constructor. -/
def rotateChecked (d : Direction) (w : Rotation) : Option Direction :=
  Direction.ofIntEnum ((d.toInt + w.toInt) % 4)

/-- Embedding of `Mow.rotate`. `rotateChecked` is proved to always
    return `some` (theorem `rotateChecked_isSome` below); the fallback
    branch is unreachable. -/
def Mow.rotate (m : Mow) (w : Rotation) : Mow :=
  match rotateChecked m.direction w with
  | some d => { m with direction := d }
  | none => m

/-- Embedding of `Mow.associate_to_grid`: raises when the current
    position is not inbound for `grid`, then when a grid is already
    set (in that order); otherwise stores the grid reference. -/
def Mow.associateToGrid (m : Mow) (g : Grid) : Except GridPlacementException Mow :=
  if ¬ g.isInbound m.position then
    .error ⟨"Position does not belong to grid"⟩
  else if m.grid.isSome then
    .error ⟨"One grid is already set"⟩
  else
    .ok { m with grid := some g }

/-- The unit step added to the position by `Mow.advance`, one case per
    direction of the `match` statement. -/
def Direction.stepVector : Direction → Position
  | .N => ⟨0, 1⟩
  | .E => ⟨1, 0⟩
  | .S => ⟨0, -1⟩
  | .W => ⟨-1, 0⟩

/-- Embedding of `Mow.advance`: raises when no grid is associated;
    otherwise moves to the candidate cell only when it is inbound
    (silent no-op otherwise). -/
def Mow.advance (m : Mow) : Except GridPlacementException Mow :=
  match m.grid with
  | none => .error ⟨"No associated grid"⟩
  | some g =>
    let p := m.position + m.direction.stepVector
    if g.isInbound p then .ok { m with position := p } else .ok m

/-- Embedding of `Mow.execute_path` on the character list of the path
    string. Python mutates the object in place and lets the exception
    from `advance` propagate, so the result is the mower's state when
    the loop stops, paired with the raised exception if any. -/
def Mow.executePath (m : Mow) : List Char → Mow × Option GridPlacementException
  | [] => (m, none)
  | c :: rest =>
    if c = 'G' then (m.rotate .G).executePath rest
    else if c = 'D' then (m.rotate .D).executePath rest
    else if c = 'A' then
      match m.advance with
      | .ok m2 => m2.executePath rest
      | .error e => (m, some e)
    else m.executePath rest

/-- The characters `execute_path` recognizes. -/
def recognized (c : Char) : Bool :=
  c = 'G' || c = 'D' || c = 'A'

/-- The opposite compass heading (the spec's `opposite`): N and S
    exchanged, E and W exchanged. -/
def Direction.opposite : Direction → Direction
  | .N => .S
  | .E => .W
  | .S => .N
  | .W => .E

/-- The enum constructor inside `rotate` never receives a value outside
    the enum: `rotateChecked` always returns `some`. -/
lemma rotateChecked_isSome (d : Direction) (w : Rotation) :
    (rotateChecked d w).isSome = true := by
  cases d <;> cases w <;> decide

/-- Rotation does not touch the grid association. -/
lemma Mow.rotate_grid (m : Mow) (w : Rotation) : (m.rotate w).grid = m.grid := by
  unfold Mow.rotate
  cases rotateChecked m.direction w <;> rfl

/-- Rotation does not touch the position. -/
lemma Mow.rotate_position (m : Mow) (w : Rotation) :
    (m.rotate w).position = m.position := by
  unfold Mow.rotate
  cases rotateChecked m.direction w <;> rfl

/-- On a mower whose grid is associated and whose position is inbound,
    `advance` succeeds and the result is again associated and inbound. -/
lemma Mow.advance_preserves (m : Mow) (g : Grid) (hg : m.grid = some g)
    (hin : g.isInbound m.position = true) :
    ∃ m2, m.advance = .ok m2 ∧ m2.grid = some g ∧ g.isInbound m2.position = true := by
  obtain ⟨p, d, go⟩ := m
  cases go with
  | none => simp at hg
  | some g0 =>
    have hgg : g0 = g := by simpa using hg
    subst hgg
    by_cases h : g0.isInbound (p + d.stepVector) = true
    · exact ⟨⟨p + d.stepVector, d, some g0⟩, by simp [Mow.advance, h], rfl, h⟩
    · exact ⟨⟨p, d, some g0⟩, by simp [Mow.advance, h], rfl, by simpa using hin⟩

/-- Path execution preserves the grid association and the inbound
    invariant, whether or not an exception stops the loop. -/
lemma Mow.executePath_preserves (path : List Char) :
    ∀ (m : Mow) (g : Grid), m.grid = some g → g.isInbound m.position = true →
      (m.executePath path).1.grid = some g ∧
        g.isInbound (m.executePath path).1.position = true := by
  induction path with
  | nil => exact fun m g hg hin => ⟨hg, hin⟩
  | cons c rest ih =>
    intro m g hg hin
    by_cases hG : c = 'G'
    · subst hG
      simpa [Mow.executePath] using
        ih (m.rotate .G) g (by rw [Mow.rotate_grid]; exact hg)
          (by rw [Mow.rotate_position]; exact hin)
    · by_cases hD : c = 'D'
      · subst hD
        simpa [Mow.executePath] using
          ih (m.rotate .D) g (by rw [Mow.rotate_grid]; exact hg)
            (by rw [Mow.rotate_position]; exact hin)
      · by_cases hA : c = 'A'
        · subst hA
          obtain ⟨m2, hadv, hg2, hin2⟩ := Mow.advance_preserves m g hg hin
          simpa [Mow.executePath, hadv] using ih m2 g hg2 hin2
        · simpa [Mow.executePath, hG, hD, hA] using ih m g hg hin

/-- Unrecognized characters are skipped: running a path is the same as
    running the path with only the recognized characters kept. -/
lemma Mow.executePath_filter (path : List Char) :
    ∀ m : Mow, m.executePath path = m.executePath (path.filter recognized) := by
  induction path with
  | nil => exact fun m => rfl
  | cons c rest ih =>
    intro m
    by_cases hG : c = 'G'
    · subst hG
      simp only [Mow.executePath, List.filter, recognized]
      simpa [Mow.executePath] using ih (m.rotate .G)
    · by_cases hD : c = 'D'
      · subst hD
        simp only [Mow.executePath, List.filter, recognized]
        simpa [Mow.executePath] using ih (m.rotate .D)
      · by_cases hA : c = 'A'
        · subst hA
          simp only [Mow.executePath, List.filter, recognized]
          cases m.advance with
          | ok m2 => simpa [Mow.executePath] using ih m2
          | error e => simp [Mow.executePath]
        · have hrec : recognized c = false := by
            simp [recognized, hG, hD, hA]
          simp only [Mow.executePath, hG, hD, hA, if_false, List.filter, hrec]
          exact ih m

/-- C1: a Mower at (1,2) heading N associated to the Grid (0,0)-(5,5)
    runs "GAGAGAGAA" to the state printed "1 3 N", and a Mower at (3,3)
    heading E on the same Grid runs "AADAADADDA" to "5 1 E"; neither
    association nor execution raises. -/
theorem C1_reference_scenarios :
    (((Mow.init ⟨1, 2⟩ .N).associateToGrid ⟨0, 0, 5, 5⟩).toOption.map
        (fun m => ((m.executePath "GAGAGAGAA".data).1.str,
                   (m.executePath "GAGAGAGAA".data).2)) = some ("1 3 N", none)) ∧
    (((Mow.init ⟨3, 3⟩ .E).associateToGrid ⟨0, 0, 5, 5⟩).toOption.map
        (fun m => ((m.executePath "AADAADADDA".data).1.str,
                   (m.executePath "AADAADADDA".data).2)) = some ("5 1 E", none)) := by
  decide

/-- C2 (counterexample): the claim includes the position setter among
    the operations that keep a bound Mower inbound, but the setter does
    no bounds check: a Mower bound to Grid (0,0)-(5,5) via
    associate_to_grid, set to position (10,10), is still bound and its
    position is out of bounds. -/
theorem C2_counterexample :
    (((Mow.init ⟨1, 1⟩ .N).associateToGrid ⟨0, 0, 5, 5⟩).toOption =
      some ⟨⟨1, 1⟩, .N, some ⟨0, 0, 5, 5⟩⟩) ∧
    ((⟨⟨1, 1⟩, .N, some ⟨0, 0, 5, 5⟩⟩ : Mow).setPosition ⟨10, 10⟩).grid =
      some ⟨0, 0, 5, 5⟩ ∧
    Grid.isInbound ⟨0, 0, 5, 5⟩
      ((⟨⟨1, 1⟩, .N, some ⟨0, 0, 5, 5⟩⟩ : Mow).setPosition ⟨10, 10⟩).position = false := by
  decide

/-- C2 (amended): for every Mower bound to a grid with an inbound
    position, the invariant grid.is_inbound(position) still holds after
    rotate, after a successful advance, after the heading setter, and
    after execute_path; the position setter is excluded because it
    performs no bounds check. -/
theorem C2_bound_invariant (m : Mow) (g : Grid) (hg : m.grid = some g)
    (hin : g.isInbound m.position = true) :
    (∀ w, g.isInbound ((m.rotate w).position) = true) ∧
    (∀ d, g.isInbound ((m.setDirection d).position) = true) ∧
    (∀ m2, m.advance = .ok m2 → g.isInbound m2.position = true) ∧
    (∀ path, g.isInbound ((m.executePath path).1.position) = true) := by
  refine ⟨fun w => ?_, fun d => hin, fun m2 hadv => ?_, fun path => ?_⟩
  · rw [Mow.rotate_position]; exact hin
  · obtain ⟨m3, hadv3, _, hin3⟩ := Mow.advance_preserves m g hg hin
    rw [hadv3] at hadv
    cases hadv
    exact hin3
  · exact (Mow.executePath_preserves path m g hg hin).2

/-- C2 (witness for the amended theorem): a bound Mower at (1,2) on
    Grid (0,0)-(5,5) stays inbound through the path "GAAA". -/
theorem C2_bound_invariant_witness :
    Grid.isInbound ⟨0, 0, 5, 5⟩
      (((⟨⟨1, 2⟩, .N, some ⟨0, 0, 5, 5⟩⟩ : Mow).executePath ['G', 'A', 'A', 'A']).1.position)
      = true :=
  (C2_bound_invariant ⟨⟨1, 2⟩, .N, some ⟨0, 0, 5, 5⟩⟩ ⟨0, 0, 5, 5⟩ rfl
    (by decide)).2.2.2 ['G', 'A', 'A', 'A']

/-- C3: rotate sends the heading to the value whose ordinal is
    (ordinal + delta) mod 4 with delta(G) = -1 and delta(D) = +1 under
    a true modulo, never feeds the enum constructor an invalid value
    (so it never raises), leaves the position unchanged, and rotating N
    to the left yields W. -/
theorem C3_rotate_modulo (m : Mow) (w : Rotation) :
    (rotateChecked m.direction w).isSome = true ∧
    (m.rotate w).direction.toInt = (m.direction.toInt + w.toInt) % 4 ∧
    (m.rotate w).position = m.position ∧
    ((m.setDirection .N).rotate .G).direction = .W := by
  obtain ⟨p, d, go⟩ := m
  cases d <;> cases w <;> exact ⟨rfl, rfl, rfl, rfl⟩

/-- C4: on a bound Mower whose candidate next cell is not inbound,
    advance raises nothing and returns the state unchanged. -/
theorem C4_advance_noop (m : Mow) (g : Grid) (hg : m.grid = some g)
    (h : g.isInbound (m.position + m.direction.stepVector) = false) :
    m.advance = .ok m := by
  unfold Mow.advance
  rw [hg]
  simp [h]

/-- C4 (witness): a Mower at (0,1) heading W on Grid (0,0)-(5,5) faces
    the cell (-1,1), which is outbound, and advance leaves it unchanged. -/
theorem C4_advance_noop_witness :
    Grid.isInbound ⟨0, 0, 5, 5⟩ ((⟨0, 1⟩ : Position) + Direction.stepVector .W) = false ∧
    (⟨⟨0, 1⟩, .W, some ⟨0, 0, 5, 5⟩⟩ : Mow).advance =
      .ok ⟨⟨0, 1⟩, .W, some ⟨0, 0, 5, 5⟩⟩ :=
  ⟨by decide, C4_advance_noop ⟨⟨0, 1⟩, .W, some ⟨0, 0, 5, 5⟩⟩ ⟨0, 0, 5, 5⟩ rfl (by decide)⟩

/-- C5: on a Mower that already holds a grid association, a second
    associate_to_grid call fails with a GridPlacementException whatever
    grid is passed, and never returns a new state. -/
theorem C5_associate_one_shot (m : Mow) (g0 : Grid) (hg : m.grid = some g0)
    (g : Grid) :
    (∃ e, m.associateToGrid g = .error e) ∧
    (∀ m2, m.associateToGrid g ≠ .ok m2) := by
  have herr : ∃ e, m.associateToGrid g = .error e := by
    unfold Mow.associateToGrid
    by_cases h : g.isInbound m.position = true
    · exact ⟨⟨"One grid is already set"⟩, by simp [h, hg]⟩
    · exact ⟨⟨"Position does not belong to grid"⟩, by simp [h]⟩
  obtain ⟨e, he⟩ := herr
  exact ⟨⟨e, he⟩, fun m2 hok => by simp [he] at hok⟩

/-- C5 (witness): associating Grid (0,0)-(5,5) a second time to the
    bound Mower at (1,1) fails. -/
theorem C5_associate_one_shot_witness :
    ∃ e, (⟨⟨1, 1⟩, .N, some ⟨0, 0, 5, 5⟩⟩ : Mow).associateToGrid ⟨0, 0, 5, 5⟩ =
      .error e :=
  (C5_associate_one_shot ⟨⟨1, 1⟩, .N, some ⟨0, 0, 5, 5⟩⟩ ⟨0, 0, 5, 5⟩ rfl ⟨0, 0, 5, 5⟩).1

/-- C6: advance raises a GridPlacementException exactly when the Mower
    has no associated grid, with the message "No associated grid"; a
    bound Mower's advance always returns a state. -/
theorem C6_advance_requires_grid (m : Mow) :
    ((∃ e, m.advance = .error e) ↔ m.grid = none) ∧
    (m.grid = none → m.advance = .error ⟨"No associated grid"⟩) := by
  obtain ⟨p, d, go⟩ := m
  cases go with
  | none => exact ⟨⟨fun _ => rfl, fun _ => ⟨⟨"No associated grid"⟩, rfl⟩⟩, fun _ => rfl⟩
  | some g =>
    refine ⟨⟨fun ⟨e, he⟩ => ?_, fun h => by simp at h⟩, fun h => by simp at h⟩
    by_cases h : g.isInbound (p + d.stepVector) = true <;>
      simp [Mow.advance, h] at he

/-- C6 (witness): advance on a never-associated Mower at (2,2) raises
    the "No associated grid" exception. -/
theorem C6_advance_requires_grid_witness :
    (Mow.init ⟨2, 2⟩ .N).advance = .error ⟨"No associated grid"⟩ :=
  (C6_advance_requires_grid (Mow.init ⟨2, 2⟩ .N)).2 rfl

/-- C7: execute_path processes characters in order, mapping 'G' to a
    left rotation, 'D' to a right rotation and 'A' to advance, skips
    any other character with no state change, and hence the end state
    on any path equals the end state on the path with all unrecognized
    characters removed. -/
theorem C7_execute_path_tolerant (m : Mow) (path : List Char) (c : Char) :
    (m.executePath ('G' :: path) = (m.rotate .G).executePath path) ∧
    (m.executePath ('D' :: path) = (m.rotate .D).executePath path) ∧
    (m.executePath ('A' :: path) =
      match m.advance with
      | .ok m2 => m2.executePath path
      | .error e => (m, some e)) ∧
    (recognized c = false → m.executePath (c :: path) = m.executePath path) ∧
    (m.executePath path = m.executePath (path.filter recognized)) := by
  refine ⟨rfl, rfl, rfl, fun hc => ?_, Mow.executePath_filter path m⟩
  have hG : ¬ c = 'G' := by rintro rfl; simp [recognized] at hc
  have hD : ¬ c = 'D' := by rintro rfl; simp [recognized] at hc
  have hA : ¬ c = 'A' := by rintro rfl; simp [recognized] at hc
  simp [Mow.executePath, hG, hD, hA]

/-- C7 (witness): on the unbound Mower at (0,0) heading E, the path
    "XG" ends in the same state as the path "G". -/
theorem C7_execute_path_tolerant_witness :
    (Mow.init ⟨0, 0⟩ .E).executePath ['X', 'G'] =
      (Mow.init ⟨0, 0⟩ .E).executePath ['G'] :=
  (C7_execute_path_tolerant (Mow.init ⟨0, 0⟩ .E) ['G'] 'X').2.2.2.1 (by decide)

/-- C8: rotating right twice yields the opposite heading, rotating left
    then right (or right then left) restores the heading, and in each
    case the position is unchanged. -/
theorem C8_rotation_algebra (m : Mow) :
    ((m.rotate .D).rotate .D).direction = m.direction.opposite ∧
    ((m.rotate .G).rotate .D).direction = m.direction ∧
    ((m.rotate .D).rotate .G).direction = m.direction ∧
    ((m.rotate .D).rotate .D).position = m.position ∧
    ((m.rotate .G).rotate .D).position = m.position ∧
    ((m.rotate .D).rotate .G).position = m.position := by
  obtain ⟨p, d, go⟩ := m
  cases d <;> exact ⟨rfl, rfl, rfl, rfl, rfl, rfl⟩

/-- C9: is_inbound holds exactly when both coordinates lie in the
    closed intervals of the grid bounds; it is a pure function. -/
theorem C9_is_inbound_closed_bounds (g : Grid) (p : Position) :
    g.isInbound p = true ↔
      (g.x_min ≤ p.x ∧ p.x ≤ g.x_max ∧ g.y_min ≤ p.y ∧ p.y ≤ g.y_max) := by
  simp [Grid.isInbound, and_assoc]

/-- C10: on a Mower with no associated grid, execute_path on a path
    whose first 'A' follows the prefix pre raises the "No associated
    grid" exception at that 'A': the rotations of pre take effect, the
    prefix itself raises nothing, and the characters after the 'A' are
    never processed (the result does not depend on them). -/
theorem C10_execute_path_unbound (m : Mow) (hg : m.grid = none)
    (pre rest : List Char) (hpre : 'A' ∉ pre) :
    m.executePath (pre ++ 'A' :: rest) =
      ((m.executePath pre).1, some ⟨"No associated grid"⟩) ∧
    (m.executePath pre).2 = none := by
  induction pre generalizing m with
  | nil =>
    refine ⟨?_, rfl⟩
    show (match m.advance with
      | .ok m2 => m2.executePath ('A' :: rest).tail
      | .error e => (m, some e)) = (m, some ⟨"No associated grid"⟩)
    unfold Mow.advance
    rw [hg]
  | cons c pre ih =>
    have hcA : ¬ c = 'A' := fun h => hpre (h ▸ List.mem_cons_self c pre)
    have hpre2 : 'A' ∉ pre := fun h => hpre (List.mem_cons_of_mem c h)
    by_cases hG : c = 'G'
    · subst hG
      have := ih (m.rotate .G) (by rw [Mow.rotate_grid]; exact hg) hpre2
      simpa [Mow.executePath] using this
    · by_cases hD : c = 'D'
      · subst hD
        have := ih (m.rotate .D) (by rw [Mow.rotate_grid]; exact hg) hpre2
        simpa [Mow.executePath] using this
      · have := ih m hg hpre2
        simpa [Mow.executePath, hG, hD, hcA] using this

/-- C10 (witness): the unbound Mower at (0,0) heading N on the path
    "GAAD" rotates once, then raises at the first 'A', ignoring the
    rest. -/
theorem C10_execute_path_unbound_witness :
    (Mow.init ⟨0, 0⟩ .N).executePath ['G', 'A', 'A', 'D'] =
      (((Mow.init ⟨0, 0⟩ .N).executePath ['G']).1, some ⟨"No associated grid"⟩) ∧
    ((Mow.init ⟨0, 0⟩ .N).executePath ['G']).2 = none :=
  C10_execute_path_unbound (Mow.init ⟨0, 0⟩ .N) rfl ['G'] ['A', 'D'] (by decide)

end Tondeuse
